import Mathlib

/-!
Verification model of the dify prompt-editor structured placeholder engine.

The engine converts between a linear placeholder-tagged text representation
and a tree of typed inline nodes, detects placeholder literals in committed
text runs and materializes them as nodes, and exposes a command protocol
(insert/delete/focus/blur) to host code.  The implementation files are not
part of this source tree (only the repository's test suite is), so the
definitions below are modelled from the specification, with exact literals,
error messages and observable behaviors pinned by the repository's own
tests.  Placeholder braces are written with \x7b / \x7d escapes.
-/

/-- Modelled from the spec: the registered fixed-token placeholder kinds
(context, history, query, request-url, current, last-run, error-message).
The parametrized human-input-output kind is modelled separately. -/
inductive BlockKind where
  | context
  | histories
  | query
  | requestURL
  | current
  | lastRun
  | errorMessage
deriving DecidableEq, Repr

/-- Modelled from the spec: constant CONTEXT_PLACEHOLDER_TEXT of the missing
constants module, pinned by constants.spec.tsx. -/
def CONTEXT_PLACEHOLDER_TEXT : String := "\x7b\x7b#context#\x7d\x7d"

/-- Modelled from the spec: constant HISTORY_PLACEHOLDER_TEXT of the missing
constants module, pinned by constants.spec.tsx. -/
def HISTORY_PLACEHOLDER_TEXT : String := "\x7b\x7b#histories#\x7d\x7d"

/-- Modelled from the spec: constant QUERY_PLACEHOLDER_TEXT of the missing
constants module, pinned by constants.spec.tsx. -/
def QUERY_PLACEHOLDER_TEXT : String := "\x7b\x7b#query#\x7d\x7d"

/-- Modelled from the spec: constant REQUEST_URL_PLACEHOLDER_TEXT of the
missing constants module, pinned by constants.spec.tsx. -/
def REQUEST_URL_PLACEHOLDER_TEXT : String := "\x7b\x7b#url#\x7d\x7d"

/-- Modelled from the spec: constant CURRENT_PLACEHOLDER_TEXT of the missing
constants module, pinned by constants.spec.tsx. -/
def CURRENT_PLACEHOLDER_TEXT : String := "\x7b\x7b#current#\x7d\x7d"

/-- Modelled from the spec: constant LAST_RUN_PLACEHOLDER_TEXT of the missing
constants module, pinned by constants.spec.tsx. -/
def LAST_RUN_PLACEHOLDER_TEXT : String := "\x7b\x7b#last_run#\x7d\x7d"

/-- Modelled from the spec: constant ERROR_MESSAGE_PLACEHOLDER_TEXT of the
missing constants module, pinned by constants.spec.tsx. -/
def ERROR_MESSAGE_PLACEHOLDER_TEXT : String := "\x7b\x7b#error_message#\x7d\x7d"

/-- Modelled from the spec: the fixed plain-text projection (the matcher
literal) of each fixed-token kind. -/
def placeholderText : BlockKind → String
  | .context => CONTEXT_PLACEHOLDER_TEXT
  | .histories => HISTORY_PLACEHOLDER_TEXT
  | .query => QUERY_PLACEHOLDER_TEXT
  | .requestURL => REQUEST_URL_PLACEHOLDER_TEXT
  | .current => CURRENT_PLACEHOLDER_TEXT
  | .lastRun => LAST_RUN_PLACEHOLDER_TEXT
  | .errorMessage => ERROR_MESSAGE_PLACEHOLDER_TEXT

/-- Modelled from the spec: a dataset entry carried by a context node's
payload (id, name, type as used by the tests). -/
structure Dataset where
  id : String
  name : String
  ty : String
deriving DecidableEq, Repr

/-- Modelled from the spec: the payload of a context-kind node.  The
onAddContext callback is a live function reference owned by the host and is
not data, so it is not part of the modelled payload. -/
structure ContextBlockNode where
  datasets : List Dataset
  canNotAddContext : Bool
deriving DecidableEq, Repr

/-- Modelled from the spec: the factory of the context kind.  The
canNotAddContext argument is optional in the source and defaults to false. -/
def createContextBlockNode (datasets : List Dataset)
    (canNotAddContext : Option Bool) : ContextBlockNode :=
  { datasets := datasets, canNotAddContext := canNotAddContext.getD false }

/-- Modelled from the spec: getTextContent of a context node is the fixed
context matcher literal. -/
def contextGetTextContent (_node : ContextBlockNode) : String :=
  CONTEXT_PLACEHOLDER_TEXT

/-- Modelled from the spec: the decoration a context node hands to the host
renderer reports the payload's dataset list and canNotAddContext flag. -/
structure ContextDecoration where
  datasets : List Dataset
  canNotAddContext : Bool
deriving DecidableEq, Repr

/-- Modelled from the spec: decorate of a context node projects its payload
into the renderable descriptor. -/
def contextDecorate (node : ContextBlockNode) : ContextDecoration :=
  { datasets := node.datasets, canNotAddContext := node.canNotAddContext }

/-- Modelled from the spec: the head of the human-input-output projection,
before the variable name. -/
def outputHead : String := "\x7b\x7b#$output."

/-- Modelled from the spec: the tail of the human-input-output projection,
after the variable name. -/
def outputTail : String := "#\x7d\x7d"

/-- Modelled from the spec: getTextContent of a human-input node with
variable name v is the templated projection embedding v. -/
def hitlGetTextContent (variableName : String) : String :=
  outputHead ++ variableName ++ outputTail

/-! ## Entity transform: literal matching and text-run scanning -/

/-- Modelled from the spec: find the first occurrence of a literal in a text
run, returning the plain text before it and the remaining text after it. -/
def splitAtFirst (lit : List Char) : List Char → Option (List Char × List Char)
  | [] => none
  | c :: cs =>
    if lit.isPrefixOf (c :: cs) then
      some ([], (c :: cs).drop lit.length)
    else
      match splitAtFirst lit cs with
      | some (b, a) => some (c :: b, a)
      | none => none

/-- A piece of a text run after one kind's transform pass: either residual
plain text or a materialized node carrying that kind's node value. -/
inductive Piece (α : Type) where
  | text (s : List Char)
  | node (a : α)
deriving DecidableEq, Repr

/-- Modelled from the spec: one kind's replacement transform over a committed
text run.  It repeatedly finds the first occurrence of the kind's literal,
splits the run there, replaces the matched span with the kind's factory
output, keeps the surrounding text as plain siblings, and re-scans the
remainder.  Fuel bounds the recursion; any fuel at least the run's length is
enough because each replacement consumes at least one character. -/
def scanRun (lit : List Char) (a : α) : Nat → List Char → List (Piece α)
  | _, [] => []
  | 0, c :: cs => [.text (c :: cs)]
  | fuel + 1, c :: cs =>
    match splitAtFirst lit (c :: cs) with
    | none => [.text (c :: cs)]
    | some (b, rest) =>
      (if b = [] then [] else [.text b]) ++ .node a :: scanRun lit a fuel rest

/-- Number of nodes materialized by a transform pass.  The replacement
plugin invokes the host's onInsert callback once per materialized node, so
this is also the number of onInsert invocations. -/
def nodesOf : List (Piece α) → Nat
  | [] => 0
  | .text _ :: rest => nodesOf rest
  | .node _ :: rest => 1 + nodesOf rest

/-- Modelled from the spec: the replacement plugin invokes the host's
onInsert callback once per node its transform materializes, so the number
of onInsert invocations for a pass equals the number of nodes created. -/
def onInsertCalls (pieces : List (Piece α)) : Nat :=
  nodesOf pieces

/-- Greedy non-overlapping occurrence count of a literal in a text run;
the reference measure the scanner is proved against. -/
def occCount (lit : List Char) : List Char → Nat
  | [] => 0
  | c :: cs =>
    if lit.isPrefixOf (c :: cs) ∧ lit ≠ [] then
      1 + occCount lit ((c :: cs).drop lit.length)
    else
      occCount lit cs
termination_by l => l.length
decreasing_by
  · rename_i h
    simp only [List.length_drop, List.length_cons]
    have hlen : 1 ≤ lit.length := by
      cases lit with
      | nil => exact absurd rfl h.2
      | cons x xs => simp
    omega
  · simp

/-- Modelled from the spec: the replacement-transform plugin props of the
context kind; datasets and canNotAddContext are optional host props. -/
structure ContextReplacementProps where
  datasets : Option (List Dataset)
  canNotAddContext : Option Bool
deriving DecidableEq, Repr

/-- Modelled from the spec: the node the context replacement transform
materializes for a matched literal, built from the plugin props with the
documented defaults (empty dataset list, canNotAddContext false). -/
def contextNodeOfProps (p : ContextReplacementProps) : ContextBlockNode :=
  createContextBlockNode (p.datasets.getD []) p.canNotAddContext

/-- Full context transform pass over a text run: scan with the context
literal and materialize context nodes from the plugin props. -/
def contextTransformRun (p : ContextReplacementProps) (text : String) :
    List (Piece ContextBlockNode) :=
  scanRun CONTEXT_PLACEHOLDER_TEXT.toList (contextNodeOfProps p)
    text.toList.length text.toList

/-! ## Human-input-output parametrized matcher -/

/-- Characters admitted in a human-input output variable name by the
bounded-character-class pattern of the parametrized matcher. -/
def isVarChar (c : Char) : Bool :=
  (('a' ≤ c ∧ c ≤ 'z') ∨ ('A' ≤ c ∧ c ≤ 'Z') ∨ ('0' ≤ c ∧ c ≤ '9') ∨ c = '_')

/-- Modelled from the spec: the human-input-output matcher applied at the
start of a text run.  It recognizes the templated projection
outputHead ++ name ++ outputTail with a nonempty bounded-class name, and
returns the captured name together with the unconsumed remainder. -/
def parseHitlHead (l : List Char) : Option (List Char × List Char) :=
  match outputHead.toList.isPrefixOf l with
  | false => none
  | true =>
    let rest := l.drop outputHead.toList.length
    let name := rest.takeWhile isVarChar
    let rest2 := rest.dropWhile isVarChar
    if name = [] then none
    else if outputTail.toList.isPrefixOf rest2 then
      some (name, rest2.drop outputTail.toList.length)
    else none

/-! ## Mount-time node registration guards -/

/-- Modelled from the spec: the mount-time registration guard every plugin
runs — if the plugin's node class is not among the editor's registered node
classes, throw synchronously with the plugin's descriptive message. -/
def mountGuard (registered : Bool) (msg : String) : Except String Unit :=
  if registered then Except.ok () else Except.error msg

/-- Modelled from the spec: mounting the ContextBlock command plugin; the
error message is pinned by the repository test of the context plugin. -/
def mountContextBlock (hasContextNode : Bool) : Except String Unit :=
  mountGuard hasContextNode "ContextBlockPlugin: ContextBlock not registered on editor"

/-- Modelled from the spec: mounting the context replacement-transform
plugin; message pinned by context-block-replacement-block.spec.tsx. -/
def mountContextReplacement (hasContextNode : Bool) : Except String Unit :=
  mountGuard hasContextNode "ContextBlockNodePlugin: ContextBlockNode not registered on editor"

/-- Modelled from the spec: mounting the LastRunBlock command plugin;
message pinned by last-run-block/index.spec.tsx. -/
def mountLastRunBlock (hasLastRunNode : Bool) : Except String Unit :=
  mountGuard hasLastRunNode "Last_RunBlockPlugin: Last_RunBlock not registered on editor"

/-- Modelled from the spec: mounting the RequestURLBlock command plugin;
message pinned by request-url-block/index.spec.tsx. -/
def mountRequestURLBlock (hasRequestURLNode : Bool) : Except String Unit :=
  mountGuard hasRequestURLNode "RequestURLBlockPlugin: RequestURLBlock not registered on editor"

/-! ## Command bus: per-kind insert and delete commands -/

/-- Projection of a document piece back to plain text. -/
def pieceText : Piece BlockKind → List Char
  | .text s => s
  | .node k => (placeholderText k).toList

/-- Modelled from the spec: the observable state of one editor hosting a
placeholder kind's command plugin.  The document is the ordered piece list,
sel is the insertion index of the collapsed selection, the counters record
how many times the host's onInsert and onDelete callbacks have run, and the
two flags record whether the host provided those optional callbacks. -/
structure PluginEditor where
  mounted : Bool
  pieces : List (Piece BlockKind)
  sel : Nat
  hasOnInsert : Bool
  hasOnDelete : Bool
  insertCalls : Nat
  deleteCalls : Nat
deriving DecidableEq, Repr

/-- Root text of a plugin editor: concatenation of the pieces' plain-text
projections. -/
def rootTextOf (e : PluginEditor) : List Char :=
  (e.pieces.map pieceText).flatten

/-- Modelled from the spec: dispatching INSERT_<KIND>.  While the plugin is
mounted the handler inserts exactly one node of the kind at the selection
point, collapses the selection past it, invokes onInsert once when the host
provided it, and reports handled; after teardown dispatch reports unhandled
and nothing changes. -/
def dispatchInsertCmd (k : BlockKind) (e : PluginEditor) : PluginEditor × Bool :=
  if e.mounted then
    ({ e with
        pieces := e.pieces.insertIdx e.sel (.node k)
        sel := e.sel + 1
        insertCalls := e.insertCalls + (if e.hasOnInsert then 1 else 0) }, true)
  else (e, false)

/-- Modelled from the spec: dispatching DELETE_<KIND>.  While mounted the
handler invokes onDelete once when provided and reports handled without
touching the tree; after teardown it reports unhandled. -/
def dispatchDeleteCmd (e : PluginEditor) : PluginEditor × Bool :=
  if e.mounted then
    ({ e with deleteCalls := e.deleteCalls + (if e.hasOnDelete then 1 else 0) }, true)
  else (e, false)

/-- Tearing the plugin down unregisters both commands. -/
def unmountPlugin (e : PluginEditor) : PluginEditor :=
  { e with mounted := false }

/-- A freshly mounted plugin editor over an empty document with the
collapsed selection at the end. -/
def mkPluginEditor (hasOnInsert hasOnDelete : Bool) : PluginEditor :=
  { mounted := true, pieces := [], sel := 0, hasOnInsert := hasOnInsert,
    hasOnDelete := hasOnDelete, insertCalls := 0, deleteCalls := 0 }

/-! ## Editor-root focus, blur and clear-hide-timer commands -/

/-- Modelled from the spec: the observable state of the OnBlurBlock plugin.
pending records whether the delayed escape-command dispatch is scheduled;
the counters record callback and escape-dispatch invocations. -/
structure BlurState where
  mounted : Bool
  onFocusCount : Nat
  onBlurCount : Nat
  escapeCount : Nat
  pending : Bool
deriving DecidableEq, Repr

/-- Modelled from the spec: dispatching the editor-root focus command fires
onFocus synchronously and reports handled while mounted. -/
def dispatchFocusCmd (st : BlurState) : BlurState × Bool :=
  if st.mounted then ({ st with onFocusCount := st.onFocusCount + 1 }, true)
  else (st, false)

/-- Modelled from the spec: dispatching the editor-root blur command.  When
the blur event's related target carries the var-search-input marker the
handler returns handled without firing onBlur and without scheduling the
delayed escape dispatch — this short-circuit is pinned by the repository's
OnBlurBlock test, which asserts onBlur is not invoked in that case.
Otherwise onBlur fires synchronously and the delayed escape dispatch is
scheduled. -/
def dispatchBlurCmd (targetIsSearchInput : Bool) (st : BlurState) : BlurState × Bool :=
  if st.mounted then
    if targetIsSearchInput then (st, true)
    else ({ st with onBlurCount := st.onBlurCount + 1, pending := true }, true)
  else (st, false)

/-- Modelled from the spec: the clear-hide-timer command cancels the pending
delayed escape dispatch. -/
def dispatchClearCmd (st : BlurState) : BlurState × Bool :=
  if st.mounted then ({ st with pending := false }, true)
  else (st, false)

/-- The delay window elapsing: a scheduled escape dispatch fires exactly
once and the timer is consumed; with no timer pending nothing happens. -/
def elapseTimer (st : BlurState) : BlurState :=
  if st.pending then { st with pending := false, escapeCount := st.escapeCount + 1 }
  else st

/-- Tearing down the OnBlurBlock plugin unregisters the focus, blur and
clear-hide-timer commands. -/
def unmountBlur (st : BlurState) : BlurState :=
  { st with mounted := false }

/-- A freshly mounted OnBlurBlock state. -/
def mkBlurState : BlurState :=
  { mounted := true, onFocusCount := 0, onBlurCount := 0, escapeCount := 0,
    pending := false }

/-! ## Selection and deletion controller -/

/-- Modelled from the spec: what the per-node deletion hook observes when a
Backspace or Delete key command arrives: whether the current selection is a
node-selection, whether this hook's node is the current sole selection,
whether that node is a removable decorator node, and whether the selected
nodes include some instance of this hook's node kind. -/
structure SelState where
  isNodeSelection : Bool
  thisNodeSelected : Bool
  thisNodeIsDecorator : Bool
  selectionHasKindInstance : Bool
deriving DecidableEq, Repr

/-- The observable outcome of the hook's key handler. -/
structure DeleteOutcome where
  handled : Bool
  preventedDefault : Bool
  dispatchedDelete : Bool
  removedNode : Bool
deriving DecidableEq, Repr

/-- Modelled from the spec: the Backspace/Delete handler the hook registers
at low priority.  A node-selection of this very node (a removable decorator)
prevents the default edit, dispatches the kind's DELETE command, removes the
node and reports handled; otherwise, when the selected nodes include an
instance of this node's kind, the handler dispatches the DELETE command but
reports unhandled so default text deletion proceeds. -/
def handleDeleteKey (s : SelState) : DeleteOutcome :=
  if s.isNodeSelection ∧ s.thisNodeSelected ∧ s.thisNodeIsDecorator then
    { handled := true, preventedDefault := true, dispatchedDelete := true,
      removedNode := true }
  else if s.selectionHasKindInstance then
    { handled := false, preventedDefault := false, dispatchedDelete := true,
      removedNode := false }
  else
    { handled := false, preventedDefault := false, dispatchedDelete := false,
      removedNode := false }

/-! ## Cross-instance broadcast channel -/

/-- Modelled from the spec: the two broadcast event kinds delivered over the
cross-instance channel, each addressed to one instance id. -/
inductive BroadcastEvent where
  | updateValue (instanceId : String) (payload : String)
  | quickInsert (instanceId : String)
deriving DecidableEq, Repr

/-- The instance id an event is addressed to. -/
def BroadcastEvent.target : BroadcastEvent → String
  | .updateValue i _ => i
  | .quickInsert i => i

/-- Modelled from the spec: the observable state of one editor hosting the
UpdateBlock plugin: its root text (cursor modelled at the end, as in the
repository test) and how many clear-hide-timer commands it dispatched. -/
structure UpdateState where
  rootText : String
  clearDispatches : Nat
deriving DecidableEq, Repr

/-- Modelled from the spec: delivery of one broadcast event to an editor
with instance id myId.  Events addressed to a different instance are
silently ignored.  A matching replace-value event replaces the whole root
text with the payload; a matching quick-insert event inserts the slash
trigger character at the cursor and dispatches clear-hide-timer once. -/
def handleBroadcast (myId : String) (ev : BroadcastEvent) (st : UpdateState) :
    UpdateState :=
  match ev with
  | .updateValue i payload =>
    if i = myId then { st with rootText := payload } else st
  | .quickInsert i =>
    if i = myId then
      { rootText := st.rootText ++ "/", clearDispatches := st.clearDispatches + 1 }
    else st

/-! ## Human-input node payload and serialization -/

/-- Modelled from the spec: a variable entry of the environment,
conversation or RAG variable lists a human-input node carries. -/
structure VarItem where
  varName : String
  ty : String
deriving DecidableEq, Repr

/-- Modelled from the spec: one sibling form field carried by a human-input
node's payload. -/
structure FormInputItem where
  ty : String
  outputVariableName : String
deriving DecidableEq, Repr

/-- Modelled from the spec: the data payload of a human-input node.  Live
callback references (rename, remove, variable-type resolution) are owned by
the host and are not data, so they are outside the modelled payload. -/
structure HITLInputNode where
  variableName : String
  nodeId : String
  formInputs : List FormInputItem
  environmentVariables : List VarItem
  conversationVariables : List VarItem
  ragVariables : List VarItem
  readonly : Bool
deriving DecidableEq, Repr

/-- Modelled from the spec: the human-input node factory.  The
environment-variable, conversation-variable and RAG-variable lists and the
readonly flag are optional and default to empty lists and false. -/
def createHITLInputNode (variableName nodeId : String)
    (formInputs : List FormInputItem)
    (environmentVariables conversationVariables ragVariables : Option (List VarItem))
    (readonly : Option Bool) : HITLInputNode :=
  { variableName := variableName
    nodeId := nodeId
    formInputs := formInputs
    environmentVariables := environmentVariables.getD []
    conversationVariables := conversationVariables.getD []
    ragVariables := ragVariables.getD []
    readonly := readonly.getD false }

/-- Modelled from the spec: the serialized JSON shape of a human-input node;
formInputs is optional on import. -/
structure SerializedHITLInput where
  ty : String
  version : Nat
  variableName : String
  nodeId : String
  formInputs : Option (List FormInputItem)
  environmentVariables : Option (List VarItem)
  conversationVariables : Option (List VarItem)
  ragVariables : Option (List VarItem)
  readonly : Option Bool
deriving DecidableEq, Repr

/-- Modelled from the spec: importing a serialized human-input node.  Import
is total — missing optional payload fields take the documented fallbacks
(empty list, false) instead of failing the import. -/
def HITLInputNode.importJSON (s : SerializedHITLInput) : HITLInputNode :=
  createHITLInputNode s.variableName s.nodeId (s.formInputs.getD [])
    s.environmentVariables s.conversationVariables s.ragVariables s.readonly

/-! ## textToEditorState -/

/-- A text leaf of the serialized editor state. -/
structure TextLeaf where
  text : String
deriving DecidableEq, Repr

/-- A paragraph of the serialized editor state, holding its text leaves. -/
structure ParagraphState where
  children : List TextLeaf
deriving DecidableEq, Repr

/-- The root of the serialized editor state. -/
structure RootState where
  children : List ParagraphState
deriving DecidableEq, Repr

/-- Split a character list at newline separators, keeping empty lines; the
empty input yields one empty line, matching JavaScript split semantics. -/
def linesOf : List Char → List (List Char)
  | [] => [[]]
  | c :: cs =>
    if c = '\n' then [] :: linesOf cs
    else
      match linesOf cs with
      | [] => [[c]]
      | l :: ls => (c :: l) :: ls

/-- Modelled from the spec: textToEditorState maps the plain prompt text to
an editor-state tree with one paragraph per newline-separated line, each
paragraph holding a single text node with that line's text. -/
def textToEditorState (text : String) : RootState :=
  { children := (linesOf text.toList).map (fun l => { children := [{ text := String.mk l }] }) }

/-- Join lines back with newline separators. -/
def joinLines : List (List Char) → List Char
  | [] => []
  | [l] => l
  | l :: l2 :: ls => l ++ '\n' :: joinLines (l2 :: ls)

/-- The plain text an editor-state tree denotes: paragraph texts joined by
newlines. -/
def stateText (r : RootState) : List Char :=
  joinLines (r.children.map (fun p => (p.children.map (fun leaf => leaf.text.toList)).flatten))

/-! ## Scanner correctness lemmas -/

/-- nodesOf distributes over append. -/
theorem nodesOf_append (xs ys : List (Piece α)) :
    nodesOf (xs ++ ys) = nodesOf xs + nodesOf ys := by
  induction xs with
  | nil => simp [nodesOf]
  | cons x xs ih =>
    cases x with
    | text s => simpa [nodesOf] using ih
    | node a => simp [nodesOf, ih]; omega

/-- The occurrence count unfolds through the first-occurrence split. -/
theorem occCount_splitAtFirst (lit : List Char) (hlit : lit ≠ []) (text : List Char) :
    occCount lit text =
      match splitAtFirst lit text with
      | none => 0
      | some (_, rest) => 1 + occCount lit rest := by
  induction text with
  | nil => simp [occCount, splitAtFirst]
  | cons c cs ih =>
    by_cases h : lit.isPrefixOf (c :: cs)
    · simp [occCount, splitAtFirst, h, hlit]
    · rw [occCount]
      simp only [h, false_and, if_false]
      rw [ih, splitAtFirst]
      simp only [h, if_false]
      cases hs : splitAtFirst lit cs with
      | none => simp [hs]
      | some p => cases p with | mk b a => simp [hs]

/-- After a successful split, the remainder is strictly shorter than the
scanned run. -/
theorem splitAtFirst_rest_lt (lit : List Char) (hlit : lit ≠ [])
    (text b rest : List Char) (h : splitAtFirst lit text = some (b, rest)) :
    rest.length < text.length := by
  induction text generalizing b rest with
  | nil => simp [splitAtFirst] at h
  | cons c cs ih =>
    rw [splitAtFirst] at h
    cases hp : lit.isPrefixOf (c :: cs) with
    | true =>
      simp only [hp, if_true] at h
      simp only [Option.some.injEq, Prod.mk.injEq] at h
      obtain ⟨_, hr⟩ := h
      have hlen : 1 ≤ lit.length := by
        cases lit with
        | nil => exact absurd rfl hlit
        | cons x xs => simp
      subst hr
      simp only [List.length_drop, List.length_cons]
      omega
    | false =>
      simp only [hp, Bool.false_eq_true, if_false] at h
      cases hs : splitAtFirst lit cs with
      | none => rw [hs] at h; exact absurd h (by simp)
      | some p =>
        cases p with
        | mk b0 a0 =>
          rw [hs] at h
          simp only [Option.some.injEq, Prod.mk.injEq] at h
          obtain ⟨_, hr⟩ := h
          subst hr
          have := ih b0 a0 hs
          simp only [List.length_cons]
          omega

/-- Given enough fuel, the transform pass materializes exactly one node per
greedy occurrence of the kind's literal in the run. -/
theorem nodesOf_scanRun (lit : List Char) (hlit : lit ≠ []) (a : α) :
    ∀ fuel text, text.length ≤ fuel →
      nodesOf (scanRun lit a fuel text) = occCount lit text := by
  intro fuel
  induction fuel with
  | zero =>
    intro text hle
    have : text = [] := List.eq_nil_of_length_eq_zero (Nat.le_zero.mp hle)
    subst this
    simp [scanRun, nodesOf, occCount]
  | succ n ih =>
    intro text hle
    cases text with
    | nil => simp [scanRun, nodesOf, occCount]
    | cons c cs =>
      rw [scanRun]
      rw [occCount_splitAtFirst lit hlit]
      cases hs : splitAtFirst lit (c :: cs) with
      | none => simp [nodesOf]
      | some p =>
        cases p with
        | mk b rest =>
          have hlt := splitAtFirst_rest_lt lit hlit (c :: cs) b rest hs
          have hrest : rest.length ≤ n := by
            simp only [List.length_cons] at hlt hle
            omega
          rw [nodesOf_append]
          by_cases hb : b = []
          · simp [hb, nodesOf, ih rest hrest]
          · simp [hb, nodesOf, ih rest hrest]

/-! ## Parametrized matcher round-trip lemmas -/

/-- takeWhile keeps exactly an all-satisfying block up to a failing head. -/
theorem takeWhile_block (p : Char → Bool) (xs : List Char) (y : Char)
    (ys : List Char) (hall : ∀ c ∈ xs, p c = true) (hy : p y = false) :
    (xs ++ y :: ys).takeWhile p = xs := by
  induction xs with
  | nil => simp [List.takeWhile, hy]
  | cons x xs ih =>
    have hx : p x = true := hall x (by simp)
    simp only [List.cons_append, List.takeWhile_cons, hx, if_true]
    rw [ih (fun c hc => hall c (by simp [hc]))]

/-- dropWhile drops exactly an all-satisfying block up to a failing head. -/
theorem dropWhile_block (p : Char → Bool) (xs : List Char) (y : Char)
    (ys : List Char) (hall : ∀ c ∈ xs, p c = true) (hy : p y = false) :
    (xs ++ y :: ys).dropWhile p = y :: ys := by
  induction xs with
  | nil => simp [List.dropWhile, hy]
  | cons x xs ih =>
    have hx : p x = true := hall x (by simp)
    simp only [List.cons_append, List.dropWhile_cons, hx, if_true]
    exact ih (fun c hc => hall c (by simp [hc]))

/-- Scanning the templated human-input projection with the parametrized
matcher re-captures exactly the embedded variable name and consumes the
whole projection. -/
theorem parseHitlHead_roundtrip (v : List Char) (hne : v ≠ [])
    (hv : ∀ c ∈ v, isVarChar c = true) :
    parseHitlHead (outputHead.toList ++ v ++ outputTail.toList) = some (v, []) := by
  have htail : outputTail.toList = '#' :: ['\x7d', '\x7d'] := by decide
  have hsharp : isVarChar '#' = false := by decide
  rw [parseHitlHead]
  have hpre : outputHead.toList.isPrefixOf
      (outputHead.toList ++ (v ++ outputTail.toList)) = true := by
    simp [List.isPrefixOf_iff_prefix]
  rw [List.append_assoc]
  simp only [hpre, List.drop_left]
  rw [htail]
  rw [takeWhile_block isVarChar v '#' ['\x7d', '\x7d'] hv hsharp]
  rw [dropWhile_block isVarChar v '#' ['\x7d', '\x7d'] hv hsharp]
  simp [hne, ← htail, List.isPrefixOf_iff_prefix]

/-! ## textToEditorState lemmas -/

/-- Splitting at newlines never yields an empty line list. -/
theorem linesOf_ne_nil (l : List Char) : linesOf l ≠ [] := by
  cases l with
  | nil => simp [linesOf]
  | cons c cs =>
    rw [linesOf]
    by_cases h : c = '\n'
    · simp [h]
    · simp only [h, if_false]
      cases linesOf cs <;> simp

/-- Joining the newline-split lines reconstructs the original text. -/
theorem joinLines_linesOf (l : List Char) : joinLines (linesOf l) = l := by
  induction l with
  | nil => simp [linesOf, joinLines]
  | cons c cs ih =>
    rw [linesOf]
    by_cases h : c = '\n'
    · subst h
      rw [if_pos rfl]
      cases hcs : linesOf cs with
      | nil => exact absurd hcs (linesOf_ne_nil cs)
      | cons l0 ls =>
        rw [hcs] at ih
        rw [joinLines, ih]
        simp
    · rw [if_neg h]
      cases hcs : linesOf cs with
      | nil => exact absurd hcs (linesOf_ne_nil cs)
      | cons l0 ls =>
        rw [hcs] at ih
        cases ls with
        | nil =>
          rw [joinLines] at ih ⊢
          rw [ih]
        | cons l1 ls1 =>
          rw [joinLines] at ih ⊢
          rw [List.cons_append, ih]

/-- One line per newline separator, plus one. -/
theorem linesOf_length (l : List Char) :
    (linesOf l).length = l.count '\n' + 1 := by
  induction l with
  | nil => simp [linesOf]
  | cons c cs ih =>
    rw [linesOf]
    by_cases h : c = '\n'
    · simp [h, List.count_cons, ih]
    · simp only [h, if_false]
      cases hcs : linesOf cs with
      | nil => exact absurd hcs (linesOf_ne_nil cs)
      | cons l0 ls =>
        rw [hcs] at ih
        simp only [List.length_cons] at ih ⊢
        simp [List.count_cons, h, ih]

/-! ## Claim theorems -/

/-- Claim C1: every registered placeholder kind's factory produces a node
whose plain-text projection is exactly the kind's matcher literal — context
projects to the context literal, query, histories, request-url and last-run
to theirs, and a human-input node with variable name v to the templated
output projection embedding v — and re-scanning a node's projection with
its own kind's matcher re-produces an equivalent node (one node of the same
kind consuming the whole projection, with the variable name re-captured for
the parametrized kind). -/
theorem claim_C1 (v : String) (hne : v.toList ≠ [])
    (hv : ∀ c ∈ v.toList, isVarChar c = true) :
    (∀ ds cb, contextGetTextContent (createContextBlockNode ds cb) = "\x7b\x7b#context#\x7d\x7d") ∧
    placeholderText BlockKind.query = "\x7b\x7b#query#\x7d\x7d" ∧
    placeholderText BlockKind.histories = "\x7b\x7b#histories#\x7d\x7d" ∧
    placeholderText BlockKind.requestURL = "\x7b\x7b#url#\x7d\x7d" ∧
    placeholderText BlockKind.lastRun = "\x7b\x7b#last_run#\x7d\x7d" ∧
    hitlGetTextContent v = "\x7b\x7b#$output." ++ v ++ "#\x7d\x7d" ∧
    (∀ k, scanRun (placeholderText k).toList k
      (placeholderText k).toList.length (placeholderText k).toList = [Piece.node k]) ∧
    parseHitlHead (hitlGetTextContent v).toList = some (v.toList, []) := by
  refine ⟨fun ds cb => rfl, by decide, by decide, by decide, by decide, rfl, ?_, ?_⟩
  · intro k
    cases k <;> decide
  · have h : (hitlGetTextContent v).toList =
        outputHead.toList ++ v.toList ++ outputTail.toList := by
      simp [hitlGetTextContent, String.toList, String.data_append, List.append_assoc]
    rw [h]
    exact parseHitlHead_roundtrip v.toList hne hv

/-- Witness for C1 at the variable name used by the repository's
human-input node test. -/
theorem claim_C1_witness :
    "user_name".toList ≠ [] ∧
    parseHitlHead (hitlGetTextContent "user_name").toList =
      some ("user_name".toList, []) :=
  ⟨by decide, (claim_C1 "user_name" (by decide) (by decide)).2.2.2.2.2.2.2⟩

/-- Concrete occurrence counts of the context literal are computed through
the scanner equivalence, since occCount is defined by well-founded
recursion and does not reduce by kernel evaluation. -/
theorem occCount_context_concrete (text : String) (n : Nat)
    (h : nodesOf (contextTransformRun { datasets := none, canNotAddContext := none } text) = n) :
    occCount CONTEXT_PLACEHOLDER_TEXT.toList text.toList = n := by
  rw [← h, contextTransformRun]
  exact (nodesOf_scanRun CONTEXT_PLACEHOLDER_TEXT.toList (by decide)
    (contextNodeOfProps { datasets := none, canNotAddContext := none })
    text.toList.length text.toList (le_refl _)).symm

/-- Claim C2: the number of nodes a kind's replacement transform
materializes from a committed text run equals the number of occurrences of
the kind's literal — so a run containing the literal once (such as the
test's run built around the context literal) yields exactly one node with
one onInsert invocation, and an empty run, a plain run, or a run with only
a partial literal yields zero nodes and no onInsert invocation — and a
context node materialized with no datasets supplied decorates with an empty
dataset list and canNotAddContext false. -/
theorem claim_C2 (p : ContextReplacementProps) (text : String) :
    (nodesOf (contextTransformRun p text) =
      occCount CONTEXT_PLACEHOLDER_TEXT.toList text.toList) ∧
    (occCount CONTEXT_PLACEHOLDER_TEXT.toList text.toList = 1 →
      nodesOf (contextTransformRun p text) = 1 ∧
      onInsertCalls (contextTransformRun p text) = 1) ∧
    (occCount CONTEXT_PLACEHOLDER_TEXT.toList text.toList = 0 →
      nodesOf (contextTransformRun p text) = 0 ∧
      onInsertCalls (contextTransformRun p text) = 0) ∧
    contextTransformRun { datasets := none, canNotAddContext := none }
      "A \x7b\x7b#context#\x7d\x7d B" =
      [Piece.text "A ".toList,
        Piece.node { datasets := [], canNotAddContext := false },
        Piece.text " B".toList] ∧
    occCount CONTEXT_PLACEHOLDER_TEXT.toList "A \x7b\x7b#context#\x7d\x7d B".toList = 1 ∧
    contextTransformRun { datasets := none, canNotAddContext := none } "" = [] ∧
    contextTransformRun { datasets := none, canNotAddContext := none }
      "just some normal text" = [Piece.text "just some normal text".toList] ∧
    contextTransformRun { datasets := none, canNotAddContext := none }
      "\x7b\x7b#contex" = [Piece.text "\x7b\x7b#contex".toList] ∧
    contextDecorate (contextNodeOfProps { datasets := none, canNotAddContext := none }) =
      { datasets := [], canNotAddContext := false } := by
  have hlit : CONTEXT_PLACEHOLDER_TEXT.toList ≠ [] := by decide
  have hmain : nodesOf (contextTransformRun p text) =
      occCount CONTEXT_PLACEHOLDER_TEXT.toList text.toList := by
    rw [contextTransformRun]
    exact nodesOf_scanRun CONTEXT_PLACEHOLDER_TEXT.toList hlit
      (contextNodeOfProps p) text.toList.length text.toList (le_refl _)
  refine ⟨hmain, fun h1 => ⟨hmain.trans h1, ?_⟩, fun h0 => ⟨hmain.trans h0, ?_⟩,
    by decide, occCount_context_concrete _ 1 (by decide), by decide, by decide,
    by decide, by decide⟩
  · rw [onInsertCalls]
    exact hmain.trans h1
  · rw [onInsertCalls]
    exact hmain.trans h0

/-- Witness for C2 at the test's run containing one context literal. -/
theorem claim_C2_witness :
    occCount CONTEXT_PLACEHOLDER_TEXT.toList "A \x7b\x7b#context#\x7d\x7d B".toList = 1 ∧
    nodesOf (contextTransformRun { datasets := none, canNotAddContext := none }
      "A \x7b\x7b#context#\x7d\x7d B") = 1 ∧
    onInsertCalls (contextTransformRun { datasets := none, canNotAddContext := none }
      "A \x7b\x7b#context#\x7d\x7d B") = 1 :=
  ⟨occCount_context_concrete _ 1 (by decide),
    ((claim_C2 { datasets := none, canNotAddContext := none }
      "A \x7b\x7b#context#\x7d\x7d B").2.1
      (occCount_context_concrete _ 1 (by decide))).1,
    ((claim_C2 { datasets := none, canNotAddContext := none }
      "A \x7b\x7b#context#\x7d\x7d B").2.1
      (occCount_context_concrete _ 1 (by decide))).2⟩

/-- Claim C3: mounting a placeholder kind's plugin (command plugin or
replacement-transform plugin) in an editor whose node registry lacks that
kind's node class throws synchronously at mount with a descriptive message
identifying the missing kind, and mounting it with the node class
registered does not throw. -/
theorem claim_C3 :
    mountContextBlock false =
      Except.error "ContextBlockPlugin: ContextBlock not registered on editor" ∧
    mountContextBlock true = Except.ok () ∧
    mountContextReplacement false =
      Except.error "ContextBlockNodePlugin: ContextBlockNode not registered on editor" ∧
    mountContextReplacement true = Except.ok () ∧
    mountLastRunBlock false =
      Except.error "Last_RunBlockPlugin: Last_RunBlock not registered on editor" ∧
    mountLastRunBlock true = Except.ok () ∧
    mountRequestURLBlock false =
      Except.error "RequestURLBlockPlugin: RequestURLBlock not registered on editor" ∧
    mountRequestURLBlock true = Except.ok () :=
  ⟨rfl, rfl, rfl, rfl, rfl, rfl, rfl, rfl⟩

/-- Claim C4: dispatching a mounted plugin's INSERT command at the end of an
empty document inserts exactly one node of the kind at the selection point —
making the root text the kind's placeholder literal — invokes onInsert
exactly once when provided, and reports handled; dispatching its DELETE
command invokes onDelete exactly once when provided and reports handled
without removing any node from the tree. -/
theorem claim_C4 (k : BlockKind) (hasIns hasDel : Bool) :
    (dispatchInsertCmd k (mkPluginEditor hasIns hasDel)).snd = true ∧
    rootTextOf (dispatchInsertCmd k (mkPluginEditor hasIns hasDel)).fst =
      (placeholderText k).toList ∧
    nodesOf (dispatchInsertCmd k (mkPluginEditor hasIns hasDel)).fst.pieces = 1 ∧
    (dispatchInsertCmd k (mkPluginEditor hasIns hasDel)).fst.insertCalls =
      (if hasIns then 1 else 0) ∧
    (dispatchDeleteCmd (dispatchInsertCmd k (mkPluginEditor hasIns hasDel)).fst).snd = true ∧
    (dispatchDeleteCmd (dispatchInsertCmd k (mkPluginEditor hasIns hasDel)).fst).fst.pieces =
      (dispatchInsertCmd k (mkPluginEditor hasIns hasDel)).fst.pieces ∧
    (dispatchDeleteCmd (dispatchInsertCmd k (mkPluginEditor hasIns hasDel)).fst).fst.deleteCalls =
      (if hasDel then 1 else 0) := by
  cases k <;> cases hasIns <;> cases hasDel <;> decide

/-- Claim C5: after a placeholder kind's plugin unmounts, dispatching its
INSERT or DELETE command reports unhandled and leaves the editor unchanged
(so neither onInsert nor onDelete runs), and after the editor-root plugin
unmounts, the focus, blur and clear-hide-timer commands likewise report
unhandled and change nothing. -/
theorem claim_C5 (e : PluginEditor) (k : BlockKind) (b : Bool) (st : BlurState) :
    dispatchInsertCmd k (unmountPlugin e) = (unmountPlugin e, false) ∧
    dispatchDeleteCmd (unmountPlugin e) = (unmountPlugin e, false) ∧
    dispatchFocusCmd (unmountBlur st) = (unmountBlur st, false) ∧
    dispatchBlurCmd b (unmountBlur st) = (unmountBlur st, false) ∧
    dispatchClearCmd (unmountBlur st) = (unmountBlur st, false) := by
  simp [dispatchInsertCmd, dispatchDeleteCmd, dispatchFocusCmd, dispatchBlurCmd,
    dispatchClearCmd, unmountPlugin, unmountBlur]

/-- Claim C6: on Backspace/Delete, a node-selection of this hook's own
removable decorator node prevents the default edit, dispatches the kind's
DELETE command, removes the node and reports handled; when the selection is
not a node-selection but the selected nodes include an instance of this
node's kind while this node is not itself selected, the hook dispatches the
DELETE command but reports unhandled so default text deletion proceeds. -/
theorem claim_C6 (s : SelState) :
    (s.isNodeSelection = true → s.thisNodeSelected = true →
      s.thisNodeIsDecorator = true →
      handleDeleteKey s =
        { handled := true, preventedDefault := true, dispatchedDelete := true,
          removedNode := true }) ∧
    (s.isNodeSelection = false → s.thisNodeSelected = false →
      s.selectionHasKindInstance = true →
      handleDeleteKey s =
        { handled := false, preventedDefault := false, dispatchedDelete := true,
          removedNode := false }) := by
  constructor
  · intro h1 h2 h3
    simp [handleDeleteKey, h1, h2, h3]
  · intro h1 h2 h3
    simp [handleDeleteKey, h1, h2, h3]

/-- Witness for C6 at the two selection shapes exercised by the
repository's hook test. -/
theorem claim_C6_witness :
    handleDeleteKey
      { isNodeSelection := true, thisNodeSelected := true,
        thisNodeIsDecorator := true, selectionHasKindInstance := true } =
      { handled := true, preventedDefault := true, dispatchedDelete := true,
        removedNode := true } ∧
    handleDeleteKey
      { isNodeSelection := false, thisNodeSelected := false,
        thisNodeIsDecorator := true, selectionHasKindInstance := true } =
      { handled := false, preventedDefault := false, dispatchedDelete := true,
        removedNode := false } :=
  ⟨(claim_C6 _).1 rfl rfl rfl, (claim_C6 _).2 rfl rfl rfl⟩

/-- Counterexample to C7 as stated: dispatching the editor-root blur
command with a related target carrying the var-search-input marker is
handled, yet the host's onBlur callback is not fired — so onBlur is not
fired on every dispatch of the blur command. -/
theorem claim_C7_counterexample :
    (dispatchBlurCmd true mkBlurState).snd = true ∧
    ¬ (dispatchBlurCmd true mkBlurState).fst.onBlurCount =
        mkBlurState.onBlurCount + 1 := by
  constructor
  · decide
  · decide

/-- Claim C7 as amended: for a blur dispatch whose related target does not
carry the var-search-input marker, onBlur fires synchronously and a delayed
escape dispatch is scheduled that fires exactly once after the delay
elapses; dispatching clear-hide-timer before the delay elapses cancels the
pending dispatch so the escape command never fires; and a blur dispatch
whose related target carries the marker is handled without firing onBlur
and without scheduling the escape dispatch. -/
theorem claim_C7_amended (st : BlurState) (hm : st.mounted = true) :
    ((dispatchBlurCmd false st).snd = true ∧
      (dispatchBlurCmd false st).fst.onBlurCount = st.onBlurCount + 1 ∧
      (dispatchBlurCmd false st).fst.pending = true) ∧
    (elapseTimer (dispatchBlurCmd false st).fst).escapeCount = st.escapeCount + 1 ∧
    (elapseTimer (elapseTimer (dispatchBlurCmd false st).fst)).escapeCount =
      st.escapeCount + 1 ∧
    ((dispatchClearCmd (dispatchBlurCmd false st).fst).snd = true ∧
      (elapseTimer (dispatchClearCmd (dispatchBlurCmd false st).fst).fst).escapeCount =
        st.escapeCount) ∧
    ((dispatchBlurCmd true st).snd = true ∧
      (dispatchBlurCmd true st).fst = st) := by
  simp [dispatchBlurCmd, dispatchClearCmd, elapseTimer, hm]

/-- Witness for the amended C7 at a freshly mounted state. -/
theorem claim_C7_witness :
    mkBlurState.mounted = true ∧
    (elapseTimer (dispatchBlurCmd false mkBlurState).fst).escapeCount =
      mkBlurState.escapeCount + 1 :=
  ⟨rfl, (claim_C7_amended mkBlurState rfl).2.1⟩

/-- Claim C8: broadcast delivery is filtered by instance id equality — an
event addressed to a different instance leaves the editor state unchanged,
a matching replace-value event sets the root text to the payload, and a
matching quick-insert event at the end of an empty document makes the root
text the slash trigger and dispatches clear-hide-timer exactly once. -/
theorem claim_C8 (myId : String) (ev : BroadcastEvent) (st : UpdateState)
    (hne : ev.target ≠ myId) :
    handleBroadcast myId ev st = st ∧
    (∀ payload, handleBroadcast myId (BroadcastEvent.updateValue myId payload) st =
      { st with rootText := payload }) ∧
    handleBroadcast myId (BroadcastEvent.quickInsert myId)
      { rootText := "", clearDispatches := 0 } =
      { rootText := "/", clearDispatches := 1 } := by
  refine ⟨?_, ?_, ?_⟩
  · cases ev with
    | updateValue i payload =>
      simp only [BroadcastEvent.target] at hne
      simp [handleBroadcast, hne]
    | quickInsert i =>
      simp only [BroadcastEvent.target] at hne
      simp [handleBroadcast, hne]
  · intro payload
    simp [handleBroadcast]
  · simp [handleBroadcast]

/-- Witness for C8 at the test's mismatched instance ids. -/
theorem claim_C8_witness :
    (BroadcastEvent.updateValue "instance-2" "should not apply").target ≠ "instance-1" ∧
    handleBroadcast "instance-1" (BroadcastEvent.updateValue "instance-2" "should not apply")
      { rootText := "", clearDispatches := 0 } =
      { rootText := "", clearDispatches := 0 } :=
  ⟨by decide,
    (claim_C8 "instance-1" (BroadcastEvent.updateValue "instance-2" "should not apply")
      { rootText := "", clearDispatches := 0 } (by decide)).1⟩

/-- Claim C9: importing a serialized human-input node never throws (import
is total) and substitutes the documented fallbacks — a formInputs field
missing on import becomes the empty list, and a node built without the optional
environment-variable, conversation-variable and RAG-variable lists or the
readonly flag defaults them to empty lists and false. -/
theorem claim_C9 (vn nid : String) (fi : List FormInputItem)
    (ev cv rv : Option (List VarItem)) (ro : Option Bool) :
    (createHITLInputNode vn nid fi none none none none).environmentVariables = [] ∧
    (createHITLInputNode vn nid fi none none none none).conversationVariables = [] ∧
    (createHITLInputNode vn nid fi none none none none).ragVariables = [] ∧
    (createHITLInputNode vn nid fi none none none none).readonly = false ∧
    (HITLInputNode.importJSON
      { ty := "hitl-input-block", version := 1, variableName := vn, nodeId := nid,
        formInputs := none, environmentVariables := ev, conversationVariables := cv,
        ragVariables := rv, readonly := ro }).formInputs = [] ∧
    HITLInputNode.importJSON
      { ty := "hitl-input-block", version := 1, variableName := vn, nodeId := nid,
        formInputs := none, environmentVariables := none, conversationVariables := none,
        ragVariables := none, readonly := none } =
      { variableName := vn, nodeId := nid, formInputs := [],
        environmentVariables := [], conversationVariables := [],
        ragVariables := [], readonly := false } := by
  simp [createHITLInputNode, HITLInputNode.importJSON]

/-- Claim C10: textToEditorState maps every input string to an editor state
whose root holds exactly one paragraph per newline-separated line of the
input, in order, each holding a single text node with that line's text —
joining the paragraph texts with newlines reconstructs the input, and there
is one paragraph per newline separator plus one — and the empty string
produces exactly one paragraph containing a single empty text node. -/
theorem claim_C10 (t : String) :
    (textToEditorState t).children =
      (linesOf t.toList).map (fun l => { children := [{ text := String.mk l }] }) ∧
    stateText (textToEditorState t) = t.toList ∧
    (textToEditorState t).children.length = t.toList.count '\n' + 1 ∧
    textToEditorState "" = { children := [{ children := [{ text := "" }] }] } := by
  refine ⟨rfl, ?_, ?_, by decide⟩
  · have h : ∀ ls : List (List Char),
        ((ls.map (fun l => ({ children := [{ text := String.mk l }] } : ParagraphState))).map
          (fun p => (p.children.map (fun leaf => leaf.text.toList)).flatten)) = ls := by
      intro ls
      induction ls with
      | nil => rfl
      | cons x xs ih =>
        rw [List.map_cons, List.map_cons, ih]
        congr 1
        simp [String.toList]
    rw [stateText]
    show joinLines (((linesOf t.toList).map
      (fun l => ({ children := [{ text := String.mk l }] } : ParagraphState))).map
        (fun p => (p.children.map (fun leaf => leaf.text.toList)).flatten)) = t.toList
    rw [h (linesOf t.toList), joinLines_linesOf]
  · simp [textToEditorState, linesOf_length]
